import Mathlib

/-!
# NTS-KE client and server: a shallow embedding

The development follows `ntsclient/client.go` and `ntskeserver/main.go`.
Everything the two programs obtain from outside (files, the TOML decoder, the
`ntske`, `ntp`, `siv` and `gob` packages, the random generator, the clock, the
network) is a field of an environment record; the programs themselves are
pure functions from such an environment to the list of effects they perform.

Go `int` and `time.Duration` are 64-bit two's-complement integers; they are
integers here, wrapped explicitly where the code multiplies.
-/

namespace NTSKE

/-- A Go byte slice. -/
abbrev Bytes := List UInt8

/-- The bytes of a Go string, as the conversion to a byte slice gives them. -/
def bytesOf (s : String) : Bytes := s.toUTF8.data.toList

/-! ## Machine arithmetic -/

/-- Two's-complement wrap of an integer to a signed 64-bit value. -/
def wrap64 (x : Int) : Int := (x + 2 ^ 63) % 2 ^ 64 - 2 ^ 63

/-- Conversion of a Go `int` to `uint16`. -/
def toUint16 (x : Int) : Nat := (x % 65536).toNat

/-- The constant `time.Second`, in nanoseconds. -/
def second : Int := 1000000000

/-- The expression `time.Duration(n) * time.Second` for a Go `int` n. -/
def durationSeconds (n : Int) : Int := wrap64 (wrap64 n * second)

/-! ## Constants of the `ntske` package and of the client -/

def NTPv4 : Nat := 0

def AES_SIV_CMAC_256 : Nat := 15

def defaultInterval : Int := 1000

def lowestInterval : Int := 15

/-! ## Client configuration -/

/-- The client's `Config` struct. -/
structure Config where
  Server : String
  CACert : String
  Interval : Int
  deriving DecidableEq, Repr

/-- The keys a TOML document sets among those of `Config`. -/
structure ConfigKeys where
  Server : Option String
  CACert : Option String
  Interval : Option Int
  deriving DecidableEq, Repr

/-- What `toml.Decode` does to a `Config`: a key of the document overwrites the
field, a field the document does not mention keeps its value. -/
def ConfigKeys.decodeInto (k : ConfigKeys) (conf : Config) : Config :=
  { Server := k.Server.getD conf.Server
    CACert := k.CACert.getD conf.CACert
    Interval := k.Interval.getD conf.Interval }

/-- The files and decoders the client reads at startup. -/
structure Files where
  /-- The function `ioutil.ReadFile`. -/
  readFile : String → Except String Bytes
  /-- The keys `toml.Decode` finds in a document, or its error. -/
  tomlDecode : Bytes → Except String ConfigKeys
  /-- The result of `certPool.AppendCertsFromPEM`. -/
  appendCertsFromPEM : Bytes → Bool

def loadConfig (fs : Files) (configfile : String) (conf : Config) : Except String Config :=
  match fs.readFile configfile with
  | .error err => .error err
  | .ok contents =>
    match fs.tomlDecode contents with
    | .error err => .error err
    | .ok keys => .ok (keys.decodeInto conf)

/-- The fields of `tls.Config` the client sets. -/
structure TlsConfig where
  MinVersion : Nat
  MaxVersion : Nat
  CipherSuites : List Nat
  PreferServerCipherSuites : Bool
  RootCAs : Option Bytes
  InsecureSkipVerify : Bool
  deriving DecidableEq, Repr

def VersionTLS12 : Nat := 0x0303

def TLS_RSA_WITH_AES_128_CBC_SHA256 : Nat := 0x003c

def tlsSetup (fs : Files) (cacert : String) (insecure : Bool) : Except String TlsConfig :=
  let c : TlsConfig :=
    { MinVersion := VersionTLS12
      MaxVersion := VersionTLS12
      CipherSuites := [TLS_RSA_WITH_AES_128_CBC_SHA256]
      PreferServerCipherSuites := true
      RootCAs := none
      InsecureSkipVerify := false }
  let withPool : Except String TlsConfig :=
    if cacert ≠ "" then
      match fs.readFile cacert with
      | .error err => .error ("read from cacert file failed: " ++ err)
      | .ok certs =>
        if fs.appendCertsFromPEM certs then .ok { c with RootCAs := some certs }
        else .error "append PEM certs failed"
    else .ok c
  match withPool with
  | .error err => .error err
  | .ok c => if insecure then .ok { c with InsecureSkipVerify := true } else .ok c

/-- The options of the command line, or of the environment: `none` when the
option is not given there. -/
structure Options where
  config : Option String
  server : Option String
  interval : Option Int
  cacert : Option String
  insecure : Option Bool
  dryRun : Option Bool
  verbose : Option Bool
  debug : Option Bool
  deriving DecidableEq, Repr

/-- No option given. -/
def Options.none : Options :=
  { config := Option.none, server := Option.none, interval := Option.none, cacert := Option.none,
    insecure := Option.none, dryRun := Option.none, verbose := Option.none, debug := Option.none }

/-- The flag variables of `main` after `kingpin.MustParse`. -/
structure Flags where
  configFlag : String
  serverFlag : String
  caCertFlag : String
  intervalFlag : Int
  insecureFlag : Bool
  dryFlag : Bool
  verboseFlag : Bool
  debugFlag : Bool
  deriving DecidableEq, Repr

/-- The value of one flag variable: the command line's when the option is given
there, else the `NTSCLIENT_` environment variable's (`DefaultEnvars`), else the
zero value of the variable. -/
def flagValue {α : Type} (cli envar : Option α) (zero : α) : α :=
  cli.getD (envar.getD zero)

/-- The flag variables, from the command line and the environment. -/
def parseFlags (cli envars : Options) : Flags :=
  { configFlag := flagValue cli.config envars.config ""
    serverFlag := flagValue cli.server envars.server ""
    caCertFlag := flagValue cli.cacert envars.cacert ""
    intervalFlag := flagValue cli.interval envars.interval 0
    insecureFlag := flagValue cli.insecure envars.insecure false
    dryFlag := flagValue cli.dryRun envars.dryRun false
    verboseFlag := flagValue cli.verbose envars.verbose false
    debugFlag := flagValue cli.debug envars.debug false }

/-- The part of `main` commented "let flags override config file". -/
def overrideWithFlags (flags : Flags) (conf : Config) : Config :=
  let conf := if flags.serverFlag ≠ "" then { conf with Server := flags.serverFlag } else conf
  let conf := if flags.caCertFlag ≠ "" then { conf with CACert := flags.caCertFlag } else conf
  let conf := if flags.intervalFlag > 0 then { conf with Interval := flags.intervalFlag } else conf
  conf

/-- The condition of the interval guard of `main`. -/
def intervalRefused (debugFlag : Bool) (interval : Int) : Bool :=
  !debugFlag && decide (durationSeconds interval < lowestInterval * second)

/-- The fatal exits of the client's startup. -/
inductive Fatal where
  | configLoad (err : String)
  | intervalTooLow
  | noServer
  | tlsSetup (err : String)
  deriving DecidableEq, Repr

/-- The configuration `main` holds once the config file and the flags are
merged, or the fatal exit of the config loading. -/
def effectiveConfig (fs : Files) (flags : Flags) : Except Fatal Config :=
  let conf : Config := { Server := "", CACert := "", Interval := defaultInterval }
  let loaded : Except Fatal Config :=
    if flags.configFlag ≠ "" then
      match loadConfig fs flags.configFlag conf with
      | .error err => .error (.configLoad err)
      | .ok conf => .ok conf
    else .ok conf
  match loaded with
  | .error f => .error f
  | .ok conf => .ok (overrideWithFlags flags conf)

/-- The startup of `main` through the check "No server configured": the fatal
exit taken, or the configuration the client goes on with. -/
def checkedConfig (fs : Files) (flags : Flags) : Except Fatal Config :=
  match effectiveConfig fs flags with
  | .error f => .error f
  | .ok conf =>
    if intervalRefused flags.debugFlag conf.Interval then .error .intervalTooLow
    else if conf.Server = "" then .error .noServer
    else .ok conf

/-! ## The session state of the `ntske` package -/

/-- The struct `ntske.Data`. -/
structure Data where
  C2sKey : Bytes
  S2cKey : Bytes
  Server : String
  Port : Nat
  Algo : Nat
  Cookie : List Bytes
  deriving DecidableEq, Repr

/-- The session object `ntske.KeyExchange`: the TLS connection it owns (named
by a number), the negotiated data and the debug flag. -/
structure KeyExchange where
  Conn : Nat
  Meta : Data
  Debug : Bool
  deriving DecidableEq, Repr

/-- The fields of `ntp.QueryOptions` the client sets. -/
structure QueryOptions where
  Port : Int
  NTS : Bool
  C2s : Bytes
  S2c : Bytes
  Cookie : Bytes
  Debug : Bool
  deriving DecidableEq, Repr

/-- An `ntp.Response`: its time and clock offset (nanoseconds), and the error
its `Validate()` returns, `none` for nil. -/
structure Response where
  Time : Int
  ClockOffset : Int
  validate : Option String
  deriving DecidableEq, Repr

/-- What the client writes with `log.Printf`. -/
inductive LogLine where
  | conf (conf : Config)
  | keyExchangeFailed (err : String)
  | queryFailed (err : String)
  | response (resp : Response)
  | validationError (err : String)
  | networkTime (server : String) (port : Nat) (time offset : Int)
  | setTimeFailed (err : String)
  | dryRun
  deriving DecidableEq, Repr

/-- The effects of the client, in the order it performs them. -/
inductive Event where
  | fatal (f : Fatal)
  | connect (server : String) (debug : Bool)
  | exchange
  | exportKeys
  | printmeta (data : Data)
  | ntpQuery (host : String) (opt : QueryOptions)
  | setTime (t : Int)
  | sleep (d : Int)
  | log (l : LogLine)
  deriving DecidableEq, Repr

/-- The outcomes of the three `ntske` calls of one key exchange. `ExportKeys`
yields the two keys it stores into `Meta.C2sKey` and `Meta.S2cKey`; it writes no
other field of the session. -/
structure KeOracle where
  connect : String → TlsConfig → Bool → Except String KeyExchange
  exchange : KeyExchange → Except String KeyExchange
  exportKeys : KeyExchange → Except String (Bytes × Bytes)

def keyExchange (o : KeOracle) (server : String) (c : TlsConfig) (debug : Bool) :
    Except String KeyExchange × List Event :=
  match o.connect server c debug with
  | .error err =>
    (.error ("connection failure to " ++ server ++ ": " ++ err), [.connect server debug])
  | .ok ke =>
    match o.exchange ke with
    | .error err =>
      (.error ("NTS-KE exchange error: " ++ err), [.connect server debug, .exchange])
    | .ok ke =>
      if ke.Meta.Cookie.length = 0 then
        (.error "received no cookies", [.connect server debug, .exchange])
      else if ke.Meta.Algo ≠ AES_SIV_CMAC_256 then
        (.error "unknown algorithm in NTS-KE", [.connect server debug, .exchange])
      else
        match o.exportKeys ke with
        | .error err =>
          (.error ("export key failure: " ++ err),
            [.connect server debug, .exchange, .exportKeys])
        | .ok (c2s, s2c) =>
          (.ok { ke with Meta := { ke.Meta with C2sKey := c2s, S2cKey := s2c } },
            [.connect server debug, .exchange, .exportKeys])

/-! ## The polling loop -/

/-- What the outside world does during one pass of the cookie loop: the result
of `ntp.QueryWithOptions`, the reading of `time.Now()`, and the error of
`syscall.Settimeofday` (`none` for nil). -/
structure NtpStep where
  query : Except String Response
  now : Int
  settimeofday : Option String

/-- The function `setTime`: the call of `Settimeofday` and its error. -/
def setTime (s : NtpStep) (t : Int) : List Event × Option String :=
  ([.setTime t], s.settimeofday)

/-- One pass of the body of `for n := 0; n < nrcookies; n++`; both `goto sleep`
jump to the `time.Sleep` that ends the body. -/
def cookieIteration (conf : Config) (flags : Flags) (ke : KeyExchange) (opt : QueryOptions)
    (s : NtpStep) : List Event :=
  let sleep : List Event := [.sleep (durationSeconds conf.Interval)]
  match s.query with
  | .error err => [.ntpQuery ke.Meta.Server opt, .log (.queryFailed err)] ++ sleep
  | .ok resp =>
    [.ntpQuery ke.Meta.Server opt] ++
    (if flags.debugFlag then [.log (.response resp)] else []) ++
    (match resp.validate with
      | some err => [.log (.validationError err)]
      | none =>
        (if flags.dryFlag || flags.verboseFlag || flags.debugFlag then
          [.log (.networkTime ke.Meta.Server ke.Meta.Port resp.Time resp.ClockOffset)]
         else []) ++
        (if !flags.dryFlag then
          (setTime s (s.now + resp.ClockOffset)).1 ++
          (match (setTime s (s.now + resp.ClockOffset)).2 with
            | some err => [.log (.setTimeFailed err)]
            | none => [])
         else if flags.verboseFlag || flags.debugFlag then [.log .dryRun]
         else [])) ++
    sleep

/-- The cookie loop from counter n on, with `remaining = nrcookies - n` passes
left. -/
def cookieLoopFrom (conf : Config) (flags : Flags) (ke : KeyExchange) (opt : QueryOptions)
    (ntp : Nat → NtpStep) : (remaining n : Nat) → List Event
  | 0, _ => []
  | r + 1, n =>
    cookieIteration conf flags ke opt (ntp n) ++ cookieLoopFrom conf flags ke opt ntp r (n + 1)

/-- The query options `main` builds after a key exchange. -/
def queryOptions (flags : Flags) (ke : KeyExchange) : QueryOptions :=
  { Port := (ke.Meta.Port : Int)
    NTS := true
    C2s := ke.Meta.C2sKey
    S2c := ke.Meta.S2cKey
    Cookie := ke.Meta.Cookie.headD []
    Debug := flags.debugFlag }

/-- The cookie loop of `main` after the key exchange `ke`. -/
def cookieLoop (conf : Config) (flags : Flags) (ke : KeyExchange) (ntp : Nat → NtpStep) :
    List Event :=
  cookieLoopFrom conf flags ke (queryOptions flags ke) ntp ke.Meta.Cookie.length 0

/-- What the outside world does during one pass of the outer loop of `main`. -/
structure Round where
  ke : KeOracle
  ntp : Nat → NtpStep

/-- The first `fuel` passes of the endless loop of `main`, from pass k on. -/
def mainLoop (conf : Config) (tlsconfig : TlsConfig) (flags : Flags) (world : Nat → Round) :
    (fuel k : Nat) → List Event
  | 0, _ => []
  | fuel + 1, k =>
    (keyExchange (world k).ke conf.Server tlsconfig flags.debugFlag).2 ++
    (match (keyExchange (world k).ke conf.Server tlsconfig flags.debugFlag).1 with
      | .error err => [.log (.keyExchangeFailed err), .sleep (10 * second)]
      | .ok ke =>
        (if flags.debugFlag then [.printmeta ke.Meta] else []) ++
        cookieLoop conf flags ke (world k).ntp) ++
    mainLoop conf tlsconfig flags world fuel (k + 1)

/-- The client: the effects of `main` with the first `fuel` passes of its loop. -/
def main (fs : Files) (world : Nat → Round) (cli envars : Options) (fuel : Nat) : List Event :=
  let flags := parseFlags cli envars
  match checkedConfig fs flags with
  | .error f => [.fatal f]
  | .ok conf =>
    (if flags.debugFlag then [.log (.conf conf)] else []) ++
    (match tlsSetup fs conf.CACert flags.insecureFlag with
      | .error err => [.fatal (.tlsSetup err)]
      | .ok tlsconfig => mainLoop conf tlsconfig flags world fuel 0)

/-! ## The server -/

/-- The server's `PlainCookie` struct. -/
structure PlainCookie where
  Algo : Nat
  S2C : Bytes
  C2S : Bytes
  deriving DecidableEq, Repr

/-- The server's `EncryptedCookie` struct. -/
structure EncryptedCookie where
  ID : Nat
  Nonce : Bytes
  Ciphertext : Bytes
  deriving DecidableEq, Repr

/-- The record types of the `ntske` package the server fills in. -/
inductive Record where
  | NextProto (nextProto : Nat)
  | Algorithm (algo : List Nat)
  | Server (addr : Bytes)
  | Port (port : Nat)
  | Cookie (cookie : Bytes)
  | End
  deriving DecidableEq, Repr

/-- The message `ntske.ExchangeMsg`: its records, in the order they were added. -/
structure ExchangeMsg where
  Record : List Record
  deriving DecidableEq, Repr

/-- The method `AddRecord`: the record is appended to the message. -/
def ExchangeMsg.AddRecord (msg : ExchangeMsg) (rec : NTSKE.Record) : ExchangeMsg :=
  { Record := msg.Record ++ [rec] }

/-- The call `Seal(dst, nonce, plaintext, additionalData)` of an AES-SIV instance. -/
abbrev AEAD := Bytes → Bytes → Bytes → Bytes → Bytes

/-- What the server obtains from outside while it handles one connection. -/
structure ServerWorld where
  /-- The method `ke.Read()`: the session with the client message read, or an error. -/
  read : KeyExchange → Except String KeyExchange
  /-- The method `ke.ExportKeys()`: the two keys it stores into `Meta`, or an error. -/
  exportKeys : KeyExchange → Except String (Bytes × Bytes)
  /-- The random generator behind `rand.Read`: an error, or the bytes it delivers. -/
  rand : Except String (Nat → UInt8)
  /-- The function `siv.NewCMAC`. -/
  newCMAC : Bytes → Except String AEAD
  /-- The gob encoding of a `PlainCookie`. -/
  gobPlainCookie : PlainCookie → Except String Bytes
  /-- The gob encoding of an `EncryptedCookie`. -/
  gobEncryptedCookie : EncryptedCookie → Except String Bytes
  /-- The method `msg.Pack()`. -/
  packMsg : ExchangeMsg → Except String Bytes
  /-- The error of `ke.Conn.Write`, `none` for nil. -/
  write : Bytes → Option String

/-- The call `rand.Read(bits)`: on success every byte of the buffer is
overwritten with a byte of the generator. -/
def randRead (w : ServerWorld) (bits : Bytes) : Bytes × Option String :=
  match w.rand with
  | .error err => (bits, some err)
  | .ok stream => ((List.range bits.length).map stream, none)

def PlainCookie.Pack (w : ServerWorld) (c : PlainCookie) : Except String Bytes :=
  w.gobPlainCookie c

def EncryptedCookie.Pack (w : ServerWorld) (c : EncryptedCookie) : Except String Bytes :=
  w.gobEncryptedCookie c

/-- The method `PlainCookie.Encrypt`: the cookie it returns and the error (`none`
for nil). -/
def PlainCookie.Encrypt (w : ServerWorld) (c : PlainCookie) (key : Bytes) (keyid : Int) :
    EncryptedCookie × Option String :=
  let ecookie : EncryptedCookie := { ID := 0, Nonce := [], Ciphertext := [] }
  let ecookie := { ecookie with ID := toUint16 keyid }
  let bits : Bytes := List.replicate 16 0
  match randRead w bits with
  | (_, some err) => (ecookie, some err)
  | (bits, none) =>
    let ecookie := { ecookie with Nonce := bits }
    match w.newCMAC key with
    | .error err => (ecookie, some err)
    | .ok aessiv =>
      match c.Pack w with
      | .error err => (ecookie, some err)
      | .ok buf =>
        let ecookie := { ecookie with Ciphertext := aessiv [] ecookie.Nonce buf [] }
        (ecookie, none)

/-- The server's `Config` struct. -/
structure ServerConfig where
  Listen : String
  Certfile : String
  Privatefile : String
  CookieKeyID : Int
  CookieSecret : String
  deriving DecidableEq, Repr

/-- The effects of `handleClient`, in the order it performs them. -/
inductive ServerEvent where
  | read
  | exportKeys
  | printf (text : String)
  | msgString (msg : ExchangeMsg)
  | write (conn : Nat) (buf : Bytes)
  | close (conn : Nat)
  | logPrintln (text : String)
  | osExit (code : Int)
  deriving DecidableEq, Repr

/-- How a call of `handleClient` ends: it returns to the server, or it ends the
server process. -/
inductive Ending where
  | returned
  | exited (code : Int)
  deriving DecidableEq, Repr

/-- The six records of the response, with the given cookie body. -/
def responseMsg (cookie : Bytes) : ExchangeMsg :=
  let msg : ExchangeMsg := { Record := [] }
  let msg := msg.AddRecord (.NextProto NTPv4)
  let msg := msg.AddRecord (.Algorithm [AES_SIV_CMAC_256])
  let msg := msg.AddRecord (.Server (bytesOf "ntp1.glypnod.com"))
  let msg := msg.AddRecord (.Port 123)
  let msg := msg.AddRecord (.Cookie cookie)
  let msg := msg.AddRecord .End
  msg

def handleClient (w : ServerWorld) (ke : KeyExchange) (cookiekeyid : Int) (cookiesecret : String)
    (debug : Bool) : Ending × List ServerEvent :=
  match w.read ke with
  | .error err => (.returned, [.read, .printf ("Read error: " ++ err)])
  | .ok ke =>
    match w.exportKeys ke with
    | .error _ => (.returned, [.read, .exportKeys, .printf "Couldn't export session keys"])
    | .ok (c2s, s2c) =>
      let ke := { ke with Meta := { ke.Meta with C2sKey := c2s, S2cKey := s2c } }
      let plaincookie : PlainCookie :=
        { Algo := AES_SIV_CMAC_256, C2S := ke.Meta.C2sKey, S2C := ke.Meta.S2cKey }
      match plaincookie.Encrypt w (bytesOf cookiesecret) cookiekeyid with
      | (_, some err) =>
        (.exited 1,
          [.read, .exportKeys, .printf ("Couldn't encrypt cookie: " ++ err), .osExit 1])
      | (ecookie, none) =>
        match ecookie.Pack w with
        | .error _ => (.exited 1, [.read, .exportKeys, .osExit 1])
        | .ok buf =>
          let msg := responseMsg buf
          let shown : List ServerEvent := if debug then [.msgString msg] else []
          match w.packMsg msg with
          | .error _ => (.returned, [.read, .exportKeys] ++ shown)
          | .ok buf =>
            (.returned,
              [.read, .exportKeys] ++ shown ++ [.write ke.Conn buf] ++
              (match w.write buf with
                | some err => [.printf ("Write error: " ++ err)]
                | none => []) ++
              [.logPrintln "server: conn: closed"])

/-! ## The precedence of options as the specification words it -/

/-- The precedence the specification states for one setting: the command-line
value when the option is given on the command line, otherwise the config-file
value when the file sets it, otherwise the built-in default. -/
def specPrecedence {α : Type} (cli file : Option α) (builtin : α) : α :=
  cli.getD (file.getD builtin)

/-- The keys of the configuration file `main` loads: none without `--config`. -/
def loadedKeys (fs : Files) (configfile : String) : Except String ConfigKeys :=
  if configfile ≠ "" then
    match fs.readFile configfile with
    | .error err => .error err
    | .ok contents => fs.tomlDecode contents
  else .ok { Server := none, CACert := none, Interval := none }

/-! ## Reading a list of effects -/

/-- The argument of a `setTime` call. -/
def Event.setTimeArg : Event → Option Int
  | .setTime t => some t
  | _ => none

/-- The options of an NTP query. -/
def Event.queryArg : Event → Option QueryOptions
  | .ntpQuery _ opt => some opt
  | _ => none

/-- The arguments of the `setTime` calls among some effects, in order. -/
def setTimeCalls (es : List Event) : List Int := es.filterMap Event.setTimeArg

/-- The options of the NTP queries among some effects, in order. -/
def queries (es : List Event) : List QueryOptions := es.filterMap Event.queryArg

/-! ## Concrete inputs -/

/-- A file system whose every file is a TOML document with the given keys. -/
def filesWith (keys : ConfigKeys) : Files :=
  { readFile := fun _ => .ok []
    tomlDecode := fun _ => .ok keys
    appendCertsFromPEM := fun _ => true }

/-- A configuration file with a server and a large negative interval. -/
def negativeIntervalKeys : ConfigKeys :=
  { Server := some "time.example:4460", CACert := none, Interval := some (-10000000000) }

/-- A configuration file with a server and an interval of 30 seconds. -/
def fileKeys30 : ConfigKeys :=
  { Server := some "file.example:4460", CACert := none, Interval := some 30 }

/-- The command line `--config ntsclient.toml`. -/
def cliConfigOnly : Options :=
  { Options.none with config := some "ntsclient.toml" }

/-- The command line `--config ntsclient.toml --interval 0`. -/
def cliIntervalZero : Options :=
  { Options.none with config := some "ntsclient.toml", interval := some 0 }

/-- The command line `--config ntsclient.toml --interval 60`. -/
def cliInterval60 : Options :=
  { Options.none with config := some "ntsclient.toml", interval := some 60 }

/-- Session data with two different cookies. -/
def twoCookies : Data :=
  { C2sKey := [], S2cKey := [], Server := "ntp.example", Port := 123,
    Algo := AES_SIV_CMAC_256, Cookie := [[1], [2]] }

/-- A key exchange that succeeds at every step and yields `twoCookies`. -/
def goodOracle : KeOracle :=
  { connect := fun _ _ debug =>
      .ok { Conn := 1, Debug := debug,
            Meta := { C2sKey := [], S2cKey := [], Server := "", Port := 0, Algo := 0, Cookie := [] } }
    exchange := fun ke => .ok { ke with Meta := twoCookies }
    exportKeys := fun _ => .ok ([10], [20]) }

/-- A key exchange whose `Exchange` succeeds without a cookie. -/
def noCookieOracle : KeOracle :=
  { goodOracle with exchange := fun ke => .ok { ke with Meta := { twoCookies with Cookie := [] } } }

/-- A validated response with an offset of 5 ns. -/
def goodResponse : Response := { Time := 1000, ClockOffset := 5, validate := none }

/-- An NTP server that answers every query with `goodResponse`. -/
def ntpGood : Nat → NtpStep :=
  fun _ => { query := .ok goodResponse, now := 1000, settimeofday := none }

/-- An NTP server whose first query fails and whose later ones succeed. -/
def ntpFirstFails : Nat → NtpStep :=
  fun n => if n = 0 then { query := .error "timeout", now := 1000, settimeofday := none }
    else ntpGood n

/-- A TLS configuration as `tlsSetup` returns it without a CA file. -/
def plainTls : TlsConfig :=
  { MinVersion := VersionTLS12, MaxVersion := VersionTLS12,
    CipherSuites := [TLS_RSA_WITH_AES_128_CBC_SHA256], PreferServerCipherSuites := true,
    RootCAs := none, InsecureSkipVerify := false }

/-- A client configuration with the default interval. -/
def plainConf : Config := { Server := "time.example:4460", CACert := "", Interval := 1000 }

/-- Flags all at their zero value. -/
def plainFlags : Flags := parseFlags Options.none Options.none

/-- The session `keyExchange` returns from `goodOracle`. -/
def goodSession : KeyExchange :=
  { Conn := 1, Debug := false, Meta := { twoCookies with C2sKey := [10], S2cKey := [20] } }

/-- The world in which every key exchange succeeds with two cookies and the
first NTP query of each fails. -/
def worldFirstFails : Nat → Round := fun _ => { ke := goodOracle, ntp := ntpFirstFails }

/-- A server world in which every step succeeds: the generator delivers the
byte 7, `siv.NewCMAC` accepts keys of 32, 48 or 64 bytes, and the sealing and
the encoders are stand-ins that concatenate their inputs. -/
def serverGood : ServerWorld :=
  { read := fun ke => .ok ke
    exportKeys := fun _ => .ok ([10], [20])
    rand := .ok (fun _ => 7)
    newCMAC := fun key =>
      if key.length = 32 ∨ key.length = 48 ∨ key.length = 64 then
        .ok (fun _ nonce plaintext _ => nonce ++ plaintext)
      else .error "siv: invalid key size"
    gobPlainCookie := fun c => .ok (c.S2C ++ c.C2S)
    gobEncryptedCookie := fun c => .ok (c.Nonce ++ c.Ciphertext)
    packMsg := fun msg => .ok [UInt8.ofNat msg.Record.length]
    write := fun _ => none }

/-- The world `serverGood`, except that the gob encoding of the encrypted
cookie fails. -/
def serverPackFails : ServerWorld :=
  { serverGood with gobEncryptedCookie := fun _ => .error "gob: encode failed" }

/-- A cookie secret of 32 bytes. -/
def secret32 : String := "0123456789abcdef0123456789abcdef"

/-- A cookie secret of 5 bytes, which `siv.NewCMAC` refuses. -/
def secretShort : String := "short"

/-- An accepted connection, before its message is read. -/
def acceptedSession : KeyExchange :=
  { Conn := 4, Debug := false,
    Meta := { C2sKey := [], S2cKey := [], Server := "", Port := 0, Algo := 0, Cookie := [] } }

/-- The nonce the generator of `serverGood` delivers. -/
def nonce7 : Bytes := List.replicate 16 7

/-- The cookie `serverGood` mints for the keys [10] and [20]. -/
def cookie7 (keyid : Nat) : EncryptedCookie :=
  { ID := keyid, Nonce := nonce7, Ciphertext := nonce7 ++ [20, 10] }

/-! ## Theorems: the client's startup -/

theorem wrap64_of_inRange (x : Int) (h1 : -2 ^ 63 ≤ x) (h2 : x < 2 ^ 63) : wrap64 x = x := by
  unfold wrap64
  rw [Int.emod_eq_of_lt (by omega) (by omega)]
  omega

theorem durationSeconds_of_small (n : Int) (h1 : -9223372036 ≤ n) (h2 : n ≤ 9223372036) :
    durationSeconds n = n * 1000000000 := by
  unfold durationSeconds second
  rw [wrap64_of_inRange n (by norm_num; omega) (by norm_num; omega)]
  exact wrap64_of_inRange _ (by norm_num; omega) (by norm_num; omega)

/-- Where the multiplication by `time.Second` does not overflow, the guard of
`main` refuses exactly the intervals below 15 when debug is off. -/
theorem intervalRefused_of_small (n : Int) (h1 : -9223372036 ≤ n) (h2 : n ≤ 9223372036) :
    intervalRefused false n = decide (n < 15) := by
  unfold intervalRefused
  rw [durationSeconds_of_small n h1 h2]
  simp only [lowestInterval, second, Bool.not_false, Bool.true_and]
  congr 1
  apply propext
  constructor <;> intro h <;> omega

/-- C1, at the failing input: debug is off and the configuration file sets
`Interval = -10000000000`, which is below 15. The product with `time.Second`
wraps to 8446744073709551616 ns, the guard does not fire, the startup accepts
the configuration and the first effect of `main` is a key exchange. -/
theorem interval_guard_overflow :
    (-10000000000 : Int) < 15 ∧
    durationSeconds (-10000000000) = 8446744073709551616 ∧
    intervalRefused false (-10000000000) = false ∧
    checkedConfig (filesWith negativeIntervalKeys) (parseFlags cliConfigOnly Options.none)
      = .ok { Server := "time.example:4460", CACert := "", Interval := -10000000000 } ∧
    (main (filesWith negativeIntervalKeys) (fun _ => { ke := goodOracle, ntp := ntpGood })
      cliConfigOnly Options.none 1).head? = some (Event.connect "time.example:4460" false) := by
  refine ⟨by decide, by decide, by decide, by rfl, by rfl⟩

/-- The effective configuration is the defaults, overwritten by the keys of the
configuration file, overwritten by the flags. -/
theorem effectiveConfig_eq (fs : Files) (flags : Flags) (conf : Config)
    (h : effectiveConfig fs flags = .ok conf) :
    ∃ keys, loadedKeys fs flags.configFlag = .ok keys ∧
      conf = overrideWithFlags flags
        (keys.decodeInto { Server := "", CACert := "", Interval := defaultInterval }) := by
  unfold effectiveConfig loadConfig at h
  unfold loadedKeys
  dsimp only at h
  by_cases hc : flags.configFlag ≠ ""
  · rw [if_pos hc] at h ⊢
    cases hr : fs.readFile flags.configFlag with
    | error e => rw [hr] at h; cases h
    | ok contents =>
      rw [hr] at h
      dsimp only at h ⊢
      cases hd : fs.tomlDecode contents with
      | error e => rw [hd] at h; cases h
      | ok keys =>
        rw [hd] at h
        exact ⟨keys, rfl, (Except.ok.inj h).symm⟩
  · rw [if_neg hc] at h ⊢
    exact ⟨_, rfl, (Except.ok.inj h).symm⟩

/-- What the merge of `main` computes: each effective setting equals the value
of its flag variable (the command-line value when the option is given there,
else the value of its `NTSCLIENT_` environment variable) whenever that value is
non-empty (Server, CACert) or positive (Interval); otherwise it is the
config-file value when the file sets it, otherwise the built-in default. It is
the precedence the specification states whenever the environment does not set
the option and the command-line value, if given, is non-empty or positive. -/
theorem option_precedence (fs : Files) (cli envars : Options) (conf : Config)
    (h : effectiveConfig fs (parseFlags cli envars) = .ok conf) :
    ∃ keys, loadedKeys fs (flagValue cli.config envars.config "") = .ok keys ∧
      conf.Server = (if flagValue cli.server envars.server "" ≠ ""
        then flagValue cli.server envars.server "" else keys.Server.getD "") ∧
      conf.CACert = (if flagValue cli.cacert envars.cacert "" ≠ ""
        then flagValue cli.cacert envars.cacert "" else keys.CACert.getD "") ∧
      conf.Interval = (if flagValue cli.interval envars.interval 0 > 0
        then flagValue cli.interval envars.interval 0 else keys.Interval.getD 1000) ∧
      (envars.server = none → (∀ v, cli.server = some v → v ≠ "") →
        conf.Server = specPrecedence cli.server keys.Server "") ∧
      (envars.cacert = none → (∀ v, cli.cacert = some v → v ≠ "") →
        conf.CACert = specPrecedence cli.cacert keys.CACert "") ∧
      (envars.interval = none → (∀ v, cli.interval = some v → 0 < v) →
        conf.Interval = specPrecedence cli.interval keys.Interval 1000) := by
  obtain ⟨keys, hk, hconf⟩ := effectiveConfig_eq fs _ conf h
  refine ⟨keys, hk, ?_⟩
  have hS : conf.Server = (if flagValue cli.server envars.server "" ≠ ""
      then flagValue cli.server envars.server "" else keys.Server.getD "") := by
    rw [hconf]; simp only [overrideWithFlags, parseFlags, ConfigKeys.decodeInto]
    split_ifs <;> rfl
  have hC : conf.CACert = (if flagValue cli.cacert envars.cacert "" ≠ ""
      then flagValue cli.cacert envars.cacert "" else keys.CACert.getD "") := by
    rw [hconf]; simp only [overrideWithFlags, parseFlags, ConfigKeys.decodeInto]
    split_ifs <;> rfl
  have hI : conf.Interval = (if flagValue cli.interval envars.interval 0 > 0
      then flagValue cli.interval envars.interval 0 else keys.Interval.getD 1000) := by
    rw [hconf]; simp only [overrideWithFlags, parseFlags, ConfigKeys.decodeInto]
    split_ifs <;> rfl
  refine ⟨hS, hC, hI, ?_, ?_, ?_⟩
  · intro he hv
    rw [hS, he]
    cases hcli : cli.server with
    | none => simp [flagValue, specPrecedence]
    | some v => simp [flagValue, specPrecedence, hv v hcli]
  · intro he hv
    rw [hC, he]
    cases hcli : cli.cacert with
    | none => simp [flagValue, specPrecedence]
    | some v => simp [flagValue, specPrecedence, hv v hcli]
  · intro he hv
    rw [hI, he]
    cases hcli : cli.interval with
    | none => simp [flagValue, specPrecedence]
    | some v => simp [flagValue, specPrecedence, hv v hcli]

/-- C9, at the failing input: `--config ntsclient.toml --interval 0` with no
environment variable set and a file that sets `Interval = 30`. The interval is
given on the command line as 0, so the stated precedence makes the effective
interval 0; `main` keeps the 30 of the file. An interval of 60 given the same
way does override the file. -/
theorem interval_zero_flag_ignored :
    cliIntervalZero.interval = some 0 ∧
    loadedKeys (filesWith fileKeys30) (parseFlags cliIntervalZero Options.none).configFlag
      = .ok fileKeys30 ∧
    specPrecedence cliIntervalZero.interval fileKeys30.Interval defaultInterval = 0 ∧
    effectiveConfig (filesWith fileKeys30) (parseFlags cliIntervalZero Options.none)
      = .ok { Server := "file.example:4460", CACert := "", Interval := 30 } ∧
    (30 : Int) ≠ specPrecedence cliIntervalZero.interval fileKeys30.Interval defaultInterval ∧
    effectiveConfig (filesWith fileKeys30) (parseFlags cliInterval60 Options.none)
      = .ok { Server := "file.example:4460", CACert := "", Interval := 60 } := by
  refine ⟨rfl, rfl, rfl, rfl, by decide, rfl⟩

/-! ## Theorems: the key exchange -/

/-- C4: `keyExchange` returns a session only if the session has at least one
cookie and its algorithm is AES_SIV_CMAC_256 (15); when `Exchange` succeeds with
no cookie or another algorithm it returns an error and `ExportKeys` is not
called; and when every step succeeds with such a session it does return the
session, with the exported keys stored. -/
theorem keyExchange_postconditions (o : KeOracle) (server : String) (c : TlsConfig)
    (debug : Bool) :
    (∀ ke, (keyExchange o server c debug).1 = .ok ke →
      ke.Meta.Cookie ≠ [] ∧ ke.Meta.Algo = AES_SIV_CMAC_256 ∧ AES_SIV_CMAC_256 = 15) ∧
    (∀ ke0 ke1, o.connect server c debug = .ok ke0 → o.exchange ke0 = .ok ke1 →
      (ke1.Meta.Cookie = [] ∨ ke1.Meta.Algo ≠ AES_SIV_CMAC_256) →
      (∃ err, (keyExchange o server c debug).1 = .error err) ∧
      Event.exportKeys ∉ (keyExchange o server c debug).2) ∧
    (∀ ke0 ke1 c2s s2c, o.connect server c debug = .ok ke0 → o.exchange ke0 = .ok ke1 →
      ke1.Meta.Cookie ≠ [] → ke1.Meta.Algo = AES_SIV_CMAC_256 →
      o.exportKeys ke1 = .ok (c2s, s2c) →
      (keyExchange o server c debug).1
        = .ok { ke1 with Meta := { ke1.Meta with C2sKey := c2s, S2cKey := s2c } }) := by
  refine ⟨?_, ?_, ?_⟩
  · intro ke h
    unfold keyExchange at h
    cases hc : o.connect server c debug with
    | error e => simp [hc] at h
    | ok ke0 =>
      cases hx : o.exchange ke0 with
      | error e => simp [hc, hx] at h
      | ok ke1 =>
        simp only [hc, hx] at h
        by_cases hl : ke1.Meta.Cookie.length = 0
        · simp [hl] at h
        · by_cases ha : ke1.Meta.Algo ≠ AES_SIV_CMAC_256
          · simp [hl, ha] at h
          · cases he : o.exportKeys ke1 with
            | error e => simp [hl, ha, he] at h
            | ok keys =>
              obtain ⟨c2s, s2c⟩ := keys
              simp only [hl, ha, he, if_false, Except.ok.injEq] at h
              subst h
              refine ⟨?_, ?_, rfl⟩
              · intro hnil
                exact hl (by simpa using congrArg List.length hnil)
              · simpa using ha
  · intro ke0 ke1 hc hx hbad
    unfold keyExchange
    simp only [hc, hx]
    by_cases hl : ke1.Meta.Cookie.length = 0
    · simp [hl]
    · have hne : ke1.Meta.Cookie ≠ [] := fun h0 => hl (by simp [h0])
      have ha : ke1.Meta.Algo ≠ AES_SIV_CMAC_256 := by
        rcases hbad with h0 | h1
        · exact absurd h0 hne
        · exact h1
      simp [hl, ha]
  · intro ke0 ke1 c2s s2c hc hx hne ha he
    unfold keyExchange
    have hl : ¬ ke1.Meta.Cookie.length = 0 := fun h0 => hne (List.length_eq_zero.mp h0)
    simp [hc, hx, hl, ha, he]

/-- C4, at concrete key exchanges: the one of `goodOracle` returns the session
with two cookies and the exported keys; the one of `noCookieOracle`, whose
`Exchange` yields no cookie, returns an error without calling `ExportKeys`. -/
theorem keyExchange_postconditions_witness :
    (keyExchange goodOracle "time.example:4460" plainTls false).1 = .ok goodSession ∧
    goodSession.Meta.Cookie ≠ [] ∧ goodSession.Meta.Algo = 15 ∧
    (∃ err, (keyExchange noCookieOracle "time.example:4460" plainTls false).1 = .error err) ∧
    Event.exportKeys ∉ (keyExchange noCookieOracle "time.example:4460" plainTls false).2 := by
  have hgood := (keyExchange_postconditions goodOracle "time.example:4460" plainTls false).1
    goodSession rfl
  have hbad := (keyExchange_postconditions noCookieOracle "time.example:4460" plainTls
    false).2.1 _ _ rfl rfl (Or.inl rfl)
  exact ⟨rfl, hgood.1, hgood.2.1.trans hgood.2.2, hbad.1, hbad.2⟩

/-! ## Theorems: the polling loop -/

theorem cookieLoopFrom_eq_flatMap (conf : Config) (flags : Flags) (ke : KeyExchange)
    (opt : QueryOptions) (ntp : Nat → NtpStep) (r n : Nat) :
    cookieLoopFrom conf flags ke opt ntp r n
      = (List.range' n r).flatMap (fun i => cookieIteration conf flags ke opt (ntp i)) := by
  induction r generalizing n with
  | zero => rfl
  | succ r ih =>
    rw [cookieLoopFrom, ih, List.range'_succ, List.flatMap_cons]

/-- The cookie loop runs its body once for every counter below the number of
cookies, whatever the outcomes of the passes. -/
theorem cookieLoop_eq_flatMap (conf : Config) (flags : Flags) (ke : KeyExchange)
    (ntp : Nat → NtpStep) :
    cookieLoop conf flags ke ntp
      = (List.range ke.Meta.Cookie.length).flatMap
          (fun i => cookieIteration conf flags ke (queryOptions flags ke) (ntp i)) := by
  rw [cookieLoop, cookieLoopFrom_eq_flatMap, List.range_eq_range']

/-- Every pass of the loop body issues exactly one NTP query, with the options
it is given. -/
theorem queries_cookieIteration (conf : Config) (flags : Flags) (ke : KeyExchange)
    (opt : QueryOptions) (s : NtpStep) :
    queries (cookieIteration conf flags ke opt s) = [opt] := by
  obtain ⟨q, now, st⟩ := s
  obtain ⟨cf, sf, cc, iv, ins, dry, verb, dbg⟩ := flags
  cases q with
  | error e => rfl
  | ok resp =>
    obtain ⟨t, off, v⟩ := resp
    cases v <;> cases dry <;> cases verb <;> cases dbg <;> cases st <;> rfl

theorem queries_flatMap_range (f : Nat → List Event) (opt : QueryOptions)
    (h : ∀ i, queries (f i) = [opt]) (l : List Nat) :
    queries (l.flatMap f) = List.replicate l.length opt := by
  induction l with
  | nil => rfl
  | cons a l ih =>
    rw [List.flatMap_cons]
    unfold queries at ih h ⊢
    rw [List.filterMap_append, ih, h a]
    rfl

/-- The queries of one cookie loop: as many as the key exchange yielded cookies,
every one with the options built before the loop. -/
theorem queries_cookieLoop (conf : Config) (flags : Flags) (ke : KeyExchange)
    (ntp : Nat → NtpStep) :
    queries (cookieLoop conf flags ke ntp)
      = List.replicate ke.Meta.Cookie.length (queryOptions flags ke) := by
  rw [cookieLoop_eq_flatMap,
    queries_flatMap_range _ _ (fun i => queries_cookieIteration conf flags ke _ (ntp i)),
    List.length_range]

theorem setTimeCalls_cookieIteration (conf : Config) (flags : Flags) (ke : KeyExchange)
    (opt : QueryOptions) (s : NtpStep) :
    setTimeCalls (cookieIteration conf flags ke opt s) =
      (match s.query with
        | .error _ => []
        | .ok resp =>
          if resp.validate = none ∧ flags.dryFlag = false then [s.now + resp.ClockOffset]
          else []) := by
  obtain ⟨q, now, st⟩ := s
  obtain ⟨cf, sf, cc, iv, ins, dry, verb, dbg⟩ := flags
  cases q with
  | error e => rfl
  | ok resp =>
    obtain ⟨t, off, v⟩ := resp
    cases v <;> cases dry <;> cases verb <;> cases dbg <;> cases st <;> rfl

theorem getLast_cookieIteration (conf : Config) (flags : Flags) (ke : KeyExchange)
    (opt : QueryOptions) (s : NtpStep) :
    (cookieIteration conf flags ke opt s).getLast?
      = some (Event.sleep (durationSeconds conf.Interval)) := by
  obtain ⟨q, now, st⟩ := s
  obtain ⟨cf, sf, cc, iv, ins, dry, verb, dbg⟩ := flags
  cases q with
  | error e => rfl
  | ok resp =>
    obtain ⟨t, off, v⟩ := resp
    cases v <;> cases dry <;> cases verb <;> cases dbg <;> cases st <;> rfl

theorem setTimeCalls_flatMap_nil (f : Nat → List Event) (l : List Nat)
    (h : ∀ i, setTimeCalls (f i) = []) : setTimeCalls (l.flatMap f) = [] := by
  induction l with
  | nil => rfl
  | cons a l ih =>
    rw [List.flatMap_cons]
    unfold setTimeCalls at ih h ⊢
    rw [List.filterMap_append, ih, h a]
    rfl

/-- C8: in every pass of the cookie loop `setTime` is called exactly when the
NTP query returned no error, `Validate()` returned no error and dry-run is off,
and then once, with the current time plus the clock offset of the response; an
error of `setTime` is logged, the pass still ends with the sleep, and the loop
goes on with its remaining passes; with dry-run on, `setTime` is never called. -/
theorem setTime_only_after_validation (conf : Config) (flags : Flags) (ke : KeyExchange)
    (opt : QueryOptions) (s : NtpStep) :
    setTimeCalls (cookieIteration conf flags ke opt s) =
      (match s.query with
        | .error _ => []
        | .ok resp =>
          if resp.validate = none ∧ flags.dryFlag = false then [s.now + resp.ClockOffset]
          else []) ∧
    (∀ resp err, s.query = .ok resp → resp.validate = none → flags.dryFlag = false →
      s.settimeofday = some err →
      Event.log (LogLine.setTimeFailed err) ∈ cookieIteration conf flags ke opt s) ∧
    (cookieIteration conf flags ke opt s).getLast?
      = some (Event.sleep (durationSeconds conf.Interval)) ∧
    (∀ ntp, cookieLoop conf flags ke ntp
      = (List.range ke.Meta.Cookie.length).flatMap
          (fun i => cookieIteration conf flags ke (queryOptions flags ke) (ntp i))) ∧
    (flags.dryFlag = true → ∀ ntp, setTimeCalls (cookieLoop conf flags ke ntp) = []) := by
  refine ⟨setTimeCalls_cookieIteration conf flags ke opt s, ?_,
    getLast_cookieIteration conf flags ke opt s, cookieLoop_eq_flatMap conf flags ke, ?_⟩
  · intro resp err hq hv hdry hst
    obtain ⟨q, now, st⟩ := s
    obtain ⟨cf, sf, cc, iv, ins, dry, verb, dbg⟩ := flags
    obtain ⟨t, off, v⟩ := resp
    simp only at hq hv hdry hst
    subst hq hv hdry hst
    cases verb <;> cases dbg <;> simp [cookieIteration, setTime]
  · intro hdry ntp
    rw [cookieLoop_eq_flatMap]
    apply setTimeCalls_flatMap_nil
    intro i
    rw [setTimeCalls_cookieIteration]
    cases (ntp i).query with
    | error e => rfl
    | ok resp => simp [hdry]

/-- C8, at a concrete pass: a validated response with offset 5 at time 1000 and
dry-run off gives one call `setTime 1005`; the same pass with dry-run on gives
none. -/
theorem setTime_only_after_validation_example :
    setTimeCalls (cookieIteration plainConf plainFlags goodSession
      (queryOptions plainFlags goodSession) (ntpGood 0)) = [1005] ∧
    setTimeCalls (cookieIteration plainConf { plainFlags with dryFlag := true } goodSession
      (queryOptions plainFlags goodSession) (ntpGood 0)) = [] ∧
    setTimeCalls (cookieIteration plainConf plainFlags goodSession
      (queryOptions plainFlags goodSession) (ntpFirstFails 0)) = [] := by
  refine ⟨?_, ?_, ?_⟩
  · exact (setTime_only_after_validation plainConf plainFlags goodSession _ (ntpGood 0)).1
  · exact (setTime_only_after_validation plainConf _ goodSession _ (ntpGood 0)).1
  · exact (setTime_only_after_validation plainConf plainFlags goodSession _ (ntpFirstFails 0)).1

/-- C2 as amended: a pass whose NTP query returns an error, or whose response
fails `Validate()`, logs the failure, sets no time and sleeps the interval; the
loop then goes on with its next pass. A key exchange that yielded n cookies is
followed by exactly n NTP queries whatever their outcomes, and only after the
n-th pass by the next key exchange. -/
theorem cookie_loop_after_failure (conf : Config) (flags : Flags) (ke : KeyExchange)
    (ntp : Nat → NtpStep) :
    (∀ opt s err, s.query = .error err →
      cookieIteration conf flags ke opt s
        = [Event.ntpQuery ke.Meta.Server opt, Event.log (LogLine.queryFailed err),
           Event.sleep (durationSeconds conf.Interval)]) ∧
    (∀ opt s resp err, s.query = .ok resp → resp.validate = some err →
      cookieIteration conf flags ke opt s
        = [Event.ntpQuery ke.Meta.Server opt] ++
          (if flags.debugFlag then [Event.log (LogLine.response resp)] else []) ++
          [Event.log (LogLine.validationError err),
           Event.sleep (durationSeconds conf.Interval)]) ∧
    cookieLoop conf flags ke ntp
      = (List.range ke.Meta.Cookie.length).flatMap
          (fun i => cookieIteration conf flags ke (queryOptions flags ke) (ntp i)) ∧
    (queries (cookieLoop conf flags ke ntp)).length = ke.Meta.Cookie.length ∧
    (∀ tlsconfig world fuel k,
      (keyExchange (world k).ke conf.Server tlsconfig flags.debugFlag).1 = .ok ke →
      mainLoop conf tlsconfig flags world (fuel + 1) k
        = (keyExchange (world k).ke conf.Server tlsconfig flags.debugFlag).2 ++
          ((if flags.debugFlag then [Event.printmeta ke.Meta] else []) ++
            cookieLoop conf flags ke (world k).ntp) ++
          mainLoop conf tlsconfig flags world fuel (k + 1)) := by
  refine ⟨?_, ?_, cookieLoop_eq_flatMap conf flags ke ntp, ?_, ?_⟩
  · intro opt s err hq
    unfold cookieIteration
    rw [hq]
    rfl
  · intro opt s resp err hq hv
    unfold cookieIteration
    rw [hq]
    simp only [hv]
    cases flags.debugFlag <;> rfl
  · rw [queries_cookieLoop, List.length_replicate]
  · intro tlsconfig world fuel k hke
    rw [mainLoop, hke]

/-- C2, counterexample: the key exchange yields two cookies and the first NTP
query fails. After the failure and the sleep the client issues a second NTP
query from the same key exchange; no key exchange comes in between. -/
theorem cookie_loop_continues_after_failure :
    mainLoop plainConf plainTls plainFlags worldFirstFails 1 0
      = [Event.connect "time.example:4460" false, Event.exchange, Event.exportKeys,
         Event.ntpQuery "ntp.example" (queryOptions plainFlags goodSession),
         Event.log (LogLine.queryFailed "timeout"),
         Event.sleep 1000000000000,
         Event.ntpQuery "ntp.example" (queryOptions plainFlags goodSession),
         Event.setTime 1005,
         Event.sleep 1000000000000] := by
  rfl

/-- Every NTP query of a cookie loop carries the options built before the loop,
whose cookie is the first one of the key exchange. -/
theorem queries_carry_first_cookie (conf : Config) (flags : Flags) (ke : KeyExchange)
    (ntp : Nat → NtpStep) (opt : QueryOptions) (h : opt ∈ queries (cookieLoop conf flags ke ntp)) :
    opt.Cookie = ke.Meta.Cookie.headD [] ∧ opt.Port = (ke.Meta.Port : Int) ∧
    opt.C2s = ke.Meta.C2sKey ∧ opt.S2c = ke.Meta.S2cKey := by
  rw [queries_cookieLoop] at h
  rw [List.eq_of_mem_replicate h]
  exact ⟨rfl, rfl, rfl, rfl⟩

/-- C3, at the failing input: the key exchange yields the cookies [1] and [2] and
both NTP queries succeed. Both queries carry the cookie [1]; the cookie [2] is
never sent. -/
theorem every_query_carries_first_cookie :
    (keyExchange goodOracle "time.example:4460" plainTls false).1 = .ok goodSession ∧
    goodSession.Meta.Cookie = [[1], [2]] ∧
    (queries (cookieLoop plainConf plainFlags goodSession ntpGood)).map (fun o => o.Cookie)
      = [[1], [1]] := by
  refine ⟨rfl, rfl, rfl⟩

/-! ## Theorems: the server -/

/-- C10, counterexample: with the key ID 65536 `Encrypt` returns no error and a
cookie whose ID is 0. -/
theorem encrypt_id_truncated :
    PlainCookie.Encrypt serverGood { Algo := 15, S2C := [20], C2S := [10] }
        (bytesOf secret32) 65536 = (cookie7 0, none) ∧
    ((cookie7 0).ID : Int) ≠ 65536 := by
  refine ⟨by rfl, by decide⟩

/-- C10 as amended: when `Encrypt` returns no error, the ID of the cookie is
the key ID reduced modulo 65536 (the conversion to `uint16`), hence the key ID
itself when that lies in 0..65535; the nonce is 16 bytes drawn from the random
generator; the ciphertext is the AES-SIV Seal of the packed plain cookie under
the secret with that nonce and empty associated data. -/
theorem encrypt_result (w : ServerWorld) (p : PlainCookie) (key : Bytes) (keyid : Int)
    (ec : EncryptedCookie) (h : p.Encrypt w key keyid = (ec, none)) :
    (ec.ID : Int) = keyid % 65536 ∧
    (0 ≤ keyid → keyid < 65536 → (ec.ID : Int) = keyid) ∧
    ec.Nonce.length = 16 ∧
    ∃ stream aessiv buf, w.rand = .ok stream ∧ ec.Nonce = (List.range 16).map stream ∧
      w.newCMAC key = .ok aessiv ∧ p.Pack w = .ok buf ∧
      ec.Ciphertext = aessiv [] ec.Nonce buf [] := by
  have hid : ((toUint16 keyid : Nat) : Int) = keyid % 65536 := by
    unfold toUint16
    exact Int.toNat_of_nonneg (Int.emod_nonneg _ (by norm_num))
  unfold PlainCookie.Encrypt randRead at h
  cases hr : w.rand with
  | error e => simp [hr] at h
  | ok stream =>
    cases hk : w.newCMAC key with
    | error e => simp [hr, hk] at h
    | ok aessiv =>
      cases hp : p.Pack w with
      | error e => simp [hr, hk, hp] at h
      | ok buf =>
        simp only [hr, hk, hp, Prod.mk.injEq, and_true] at h
        subst h
        refine ⟨hid, ?_, by simp, stream, aessiv, buf, rfl, rfl, rfl, rfl, rfl⟩
        intro h0 h1
        simp only [hid]
        exact Int.emod_eq_of_lt h0 h1

/-- C10, witness: the key ID 1 and a secret of 32 bytes. -/
theorem encrypt_result_witness :
    PlainCookie.Encrypt serverGood { Algo := 15, S2C := [20], C2S := [10] }
        (bytesOf secret32) 1 = (cookie7 1, none) ∧
    ((cookie7 1).ID : Int) = 1 ∧ (cookie7 1).Nonce.length = 16 := by
  have h := encrypt_result serverGood { Algo := 15, S2C := [20], C2S := [10] }
    (bytesOf secret32) 1 (cookie7 1) (by rfl)
  exact ⟨by rfl, h.2.1 (by decide) (by decide), h.2.2.1⟩

/-- The server never closes the connection: no `close` is among the effects of
`handleClient`. -/
theorem handleClient_never_closes (w : ServerWorld) (ke : KeyExchange) (cookiekeyid : Int)
    (cookiesecret : String) (debug : Bool) (conn : Nat) :
    ServerEvent.close conn ∉ (handleClient w ke cookiekeyid cookiesecret debug).2 := by
  cases hr : w.read ke with
  | error e => simp [handleClient, hr]
  | ok ke1 =>
    cases hk : w.exportKeys ke1 with
    | error e => simp [handleClient, hr, hk]
    | ok keys =>
      obtain ⟨c2s, s2c⟩ := keys
      cases he : PlainCookie.Encrypt w { Algo := AES_SIV_CMAC_256, S2C := s2c, C2S := c2s }
          (bytesOf cookiesecret) cookiekeyid with
      | mk ec oe =>
        cases oe with
        | some e => simp [handleClient, hr, hk, he]
        | none =>
          cases hp : ec.Pack w with
          | error e => simp [handleClient, hr, hk, he, hp]
          | ok body =>
            cases hm : w.packMsg (responseMsg body) with
            | error e => cases debug <;> simp [handleClient, hr, hk, he, hp, hm]
            | ok buf =>
              cases debug <;> cases hw : w.write buf <;>
                simp [handleClient, hr, hk, he, hp, hm, hw]

/-- C6, at the failing input: every step of the connection succeeds. The server
writes the response, logs "server: conn: closed" and returns; the connection 4
is not closed. -/
theorem response_written_not_closed :
    handleClient serverGood acceptedSession 1 secret32 false
      = (Ending.returned,
         [ServerEvent.read, ServerEvent.exportKeys, ServerEvent.write 4 [6],
          ServerEvent.logPrintln "server: conn: closed"]) ∧
    ServerEvent.close 4 ∉ (handleClient serverGood acceptedSession 1 secret32 false).2 := by
  refine ⟨by rfl, ?_⟩
  have h : handleClient serverGood acceptedSession 1 secret32 false
      = (Ending.returned,
         [ServerEvent.read, ServerEvent.exportKeys, ServerEvent.write 4 [6],
          ServerEvent.logPrintln "server: conn: closed"]) := by rfl
  rw [h]
  decide

/-- C5, at the failing inputs. First, the cookie secret has 5 bytes:
`siv.NewCMAC` refuses it, `Encrypt` returns its error, and `handleClient` prints
the error and ends the server process with status 1. Second, the packing of the
encrypted cookie fails: `handleClient` ends the server process with status 1.
Third, for comparison, a failing `Read` on the same connection: `handleClient`
prints the error and returns. -/
theorem encrypt_failure_ends_server :
    (PlainCookie.Encrypt serverGood { Algo := AES_SIV_CMAC_256, S2C := [20], C2S := [10] }
      (bytesOf secretShort) 1).2 = some "siv: invalid key size" ∧
    handleClient serverGood acceptedSession 1 secretShort false
      = (Ending.exited 1,
         [ServerEvent.read, ServerEvent.exportKeys,
          ServerEvent.printf "Couldn't encrypt cookie: siv: invalid key size",
          ServerEvent.osExit 1]) ∧
    EncryptedCookie.Pack serverPackFails (cookie7 1) = .error "gob: encode failed" ∧
    handleClient serverPackFails acceptedSession 1 secret32 false
      = (Ending.exited 1, [ServerEvent.read, ServerEvent.exportKeys, ServerEvent.osExit 1]) ∧
    handleClient { serverGood with read := fun _ => .error "EOF" } acceptedSession 1 secret32
        false
      = (Ending.returned, [ServerEvent.read, ServerEvent.printf "Read error: EOF"]) := by
  refine ⟨by rfl, by rfl, by rfl, by rfl, by rfl⟩

/-- On a connection whose message is read and whose keys are exported, when
`PlainCookie.Encrypt` or the packing of the encrypted cookie returns an error,
`handleClient` writes no response and ends the server process with exit status
1. -/
theorem encrypt_failure_exits (w : ServerWorld) (ke ke1 : KeyExchange) (c2s s2c : Bytes)
    (cookiekeyid : Int) (cookiesecret : String) (debug : Bool)
    (hread : w.read ke = .ok ke1) (hkeys : w.exportKeys ke1 = .ok (c2s, s2c))
    (hfail : (∃ ec err, PlainCookie.Encrypt w
          { Algo := AES_SIV_CMAC_256, S2C := s2c, C2S := c2s } (bytesOf cookiesecret) cookiekeyid
            = (ec, some err)) ∨
      (∃ ec err, PlainCookie.Encrypt w
          { Algo := AES_SIV_CMAC_256, S2C := s2c, C2S := c2s } (bytesOf cookiesecret) cookiekeyid
            = (ec, none) ∧ ec.Pack w = .error err)) :
    (handleClient w ke cookiekeyid cookiesecret debug).1 = Ending.exited 1 ∧
    (handleClient w ke cookiekeyid cookiesecret debug).2.getLast? = some (ServerEvent.osExit 1) ∧
    ∀ conn buf,
      ServerEvent.write conn buf ∉ (handleClient w ke cookiekeyid cookiesecret debug).2 := by
  rcases hfail with ⟨ec, err, he⟩ | ⟨ec, err, he, hp⟩
  · simp [handleClient, hread, hkeys, he]
  · simp [handleClient, hread, hkeys, he, hp]

/-- C7: when `Read`, `ExportKeys`, the cookie encryption and the packing of the
encrypted cookie succeed, what `handleClient` writes is the packing of the
message of exactly six records NextProtocol = NTPv4, AEADAlgorithm =
[AES_SIV_CMAC_256], Server = "ntp1.glypnod.com", Port = 123, one Cookie, End, in
this order, written to the connection of the session, and it is written
whenever that packing succeeds; the body of the Cookie record is the packed
`EncryptedCookie` obtained by encrypting `PlainCookie` with Algo = 15, S2C = the
exported S2C key, C2S = the exported C2S key under the configured secret and key
ID. -/
theorem response_content (w : ServerWorld) (ke ke1 : KeyExchange) (c2s s2c : Bytes)
    (cookiekeyid : Int) (cookiesecret : String) (debug : Bool) (ecookie : EncryptedCookie)
    (body : Bytes)
    (hread : w.read ke = .ok ke1) (hkeys : w.exportKeys ke1 = .ok (c2s, s2c))
    (henc : PlainCookie.Encrypt w { Algo := 15, S2C := s2c, C2S := c2s }
      (bytesOf cookiesecret) cookiekeyid = (ecookie, none))
    (hpack : ecookie.Pack w = .ok body) :
    (∀ conn buf,
      ServerEvent.write conn buf ∈ (handleClient w ke cookiekeyid cookiesecret debug).2 →
      conn = ke1.Conn ∧
      w.packMsg { Record := [Record.NextProto NTPv4, Record.Algorithm [AES_SIV_CMAC_256],
        Record.Server (bytesOf "ntp1.glypnod.com"), Record.Port 123, Record.Cookie body,
        Record.End] } = .ok buf) ∧
    (∀ buf,
      w.packMsg { Record := [Record.NextProto NTPv4, Record.Algorithm [AES_SIV_CMAC_256],
        Record.Server (bytesOf "ntp1.glypnod.com"), Record.Port 123, Record.Cookie body,
        Record.End] } = .ok buf →
      ServerEvent.write ke1.Conn buf ∈ (handleClient w ke cookiekeyid cookiesecret debug).2) ∧
    NTPv4 = 0 ∧ AES_SIV_CMAC_256 = 15 := by
  have hmsg : responseMsg body = { Record := [Record.NextProto NTPv4,
      Record.Algorithm [AES_SIV_CMAC_256], Record.Server (bytesOf "ntp1.glypnod.com"),
      Record.Port 123, Record.Cookie body, Record.End] } := rfl
  have henc2 : PlainCookie.Encrypt w { Algo := AES_SIV_CMAC_256, S2C := s2c, C2S := c2s }
      (bytesOf cookiesecret) cookiekeyid = (ecookie, none) := henc
  rw [← hmsg]
  refine ⟨?_, ?_, rfl, rfl⟩
  · intro conn buf hmem
    cases hm : w.packMsg (responseMsg body) with
    | error e =>
      exfalso
      revert hmem
      cases debug <;> simp [handleClient, hread, hkeys, henc2, hpack, hm]
    | ok buf1 =>
      revert hmem
      cases debug <;> cases hw : w.write buf1 <;>
        simp [handleClient, hread, hkeys, henc2, hpack, hm, hw] <;>
        intro h1 h2 <;> exact ⟨h1, h2.symm⟩
  · intro buf hm
    cases debug <;> cases hw : w.write buf <;>
      simp [handleClient, hread, hkeys, henc2, hpack, hm, hw]

/-- C7, witness: the world `serverGood` with a secret of 32 bytes and key ID 1;
the packing stand-in of `serverGood` returns the number of records, 6. -/
theorem response_content_witness :
    ServerEvent.write 4 [6] ∈ (handleClient serverGood acceptedSession 1 secret32 true).2 ∧
    ∀ conn buf,
      ServerEvent.write conn buf ∈ (handleClient serverGood acceptedSession 1 secret32 true).2 →
      conn = 4 ∧ buf = [6] := by
  have h := response_content serverGood acceptedSession acceptedSession [10] [20] 1 secret32 true
    (cookie7 1) (nonce7 ++ (nonce7 ++ [20, 10])) rfl rfl (by rfl) rfl
  refine ⟨h.2.1 [6] rfl, ?_⟩
  intro conn buf hmem
  obtain ⟨hc, hb⟩ := h.1 conn buf hmem
  refine ⟨hc, ?_⟩
  have hb2 : (Except.ok [6] : Except String Bytes) = .ok buf := hb
  exact (Except.ok.inj hb2).symm

end NTSKE
